import Mathlib

/-!
Verification of the Sleek subscription/cashback application.

Two layers are embedded:

* `SleekSrc` — the client-side in-memory bookkeeping service
  (`src/services/subscriptionService.ts`), translated function by function.
  Dates are modelled as natural numbers of milliseconds since the epoch;
  the two `Date.now()` reads inside one call are modelled by a single
  `now` parameter.

* `SleekChain` — the on-chain ledger state machine.  The Rust/Anchor
  program itself is not part of the reviewed sources (only its tests,
  README account declarations and a client script are), so these
  definitions are modelled from the specification, as marked on each.
-/

namespace SleekSrc

/-- Subscription status, from the union type
`'active' | 'expired' | 'cancelled'` of `ActivatedSubscription`. -/
inductive SubStatus where
  | active
  | expired
  | cancelled
deriving DecidableEq, Repr

/-- The `Subscription` interface of `subscriptionService.ts`. -/
structure Subscription where
  id : String
  name : String
  price : Int
  solPrice : Int
  period : String
  estimated : Option Bool := none
  region : Option String := none
  category : String
deriving DecidableEq, Repr

/-- The `ActivatedSubscription` interface: a `Subscription` plus
activation bookkeeping fields. -/
structure ActivatedSubscription where
  id : String
  name : String
  price : Int
  solPrice : Int
  period : String
  estimated : Option Bool := none
  region : Option String := none
  category : String
  activatedAt : Nat
  expiresAt : Nat
  status : SubStatus
  cashbackEarned : Option Int := none
deriving DecidableEq, Repr

/-- `toLowerCase()`: lower-case every character of the string.  Stated on
the character list so the kernel can evaluate it on literals; extensionally
this is the library's `String.toLower`. -/
def strToLower (s : String) : String :=
  String.mk (s.data.map Char.toLower)

/-- `getPeriodInMs` of `SubscriptionService`: converts a period string to
milliseconds, lower-casing first; the `switch` tries `year`, `month`,
`week`, `day` in order and defaults to one year. -/
def getPeriodInMs (period : String) : Nat :=
  let p := strToLower period
  if p = "year" then 365 * 24 * 60 * 60 * 1000
  else if p = "month" then 30 * 24 * 60 * 60 * 1000
  else if p = "week" then 7 * 24 * 60 * 60 * 1000
  else if p = "day" then 24 * 60 * 60 * 1000
  else 365 * 24 * 60 * 60 * 1000

/-- The id template `` `${name.toLowerCase().replace(/\s+/g, '-')}-${Date.now()}` ``:
each maximal run of whitespace in the lower-cased name becomes a single
dash.  `prevWs` records whether the previous character was whitespace. -/
def collapseWsAux : Bool → List Char → List Char
  | _, [] => []
  | prevWs, c :: rest =>
    if c.isWhitespace then
      if prevWs then collapseWsAux true rest
      else '-' :: collapseWsAux true rest
    else c :: collapseWsAux false rest

/-- Generated record id: slug of the name plus the current timestamp. -/
def genId (name : String) (now : Nat) : String :=
  String.mk (collapseWsAux false (strToLower name).data) ++ "-" ++ toString now

/-- Modelled from the spec: `cashbackService.calculateCashback` — the file
`src/services/cashbackService.ts` is absent from the reviewed sources.
The spec gives `computeCashback(amount) = floor(amount * 0.10)`, i.e.
floor division of the integer amount by 10. -/
def calculateCashback (amount : Int) : Int :=
  Int.fdiv amount 10

/-- `activateSubscription` of `SubscriptionService`: computes the
cashback, builds the activated record (fresh id, `activatedAt = now`,
`expiresAt = now + getPeriodInMs period`, status active) and appends it
to the store.  The store is threaded explicitly in place of the mutable
`this.activatedSubscriptions` array; the function performs no duplicate
check and always succeeds. -/
def activateSubscription (now : Nat) (store : List ActivatedSubscription)
    (sub : Subscription) : List ActivatedSubscription × ActivatedSubscription :=
  let cashbackAmount := calculateCashback sub.price
  let activated : ActivatedSubscription :=
    { id := genId sub.name now
      name := sub.name
      price := sub.price
      solPrice := sub.solPrice
      period := sub.period
      estimated := sub.estimated
      region := sub.region
      category := sub.category
      activatedAt := now
      expiresAt := now + getPeriodInMs sub.period
      status := SubStatus.active
      cashbackEarned := some cashbackAmount }
  (store ++ [activated], activated)

/-- `getActivatedSubscriptions`: all records whose stored status is
`active`. -/
def getActivatedSubscriptions (store : List ActivatedSubscription) :
    List ActivatedSubscription :=
  store.filter (fun sub => sub.status = SubStatus.active)

/-- `getActivatedSubscriptionsByCategory`: active records of a category. -/
def getActivatedSubscriptionsByCategory (store : List ActivatedSubscription)
    (category : String) : List ActivatedSubscription :=
  store.filter (fun sub => sub.category = category ∧ sub.status = SubStatus.active)

/-- `isSubscriptionActivated`: whether some record with this name has
stored status `active`. -/
def isSubscriptionActivated (store : List ActivatedSubscription)
    (subscriptionName : String) : Bool :=
  store.any (fun sub => sub.name = subscriptionName && sub.status == SubStatus.active)

/-- `cancelSubscription`: `find` the first record whose id matches and set
its status to `cancelled`, returning `true`; return `false` when no record
matches.  Mutation of the found element is modelled by rebuilding the list
with that one element replaced. -/
def cancelSubscription (store : List ActivatedSubscription)
    (subscriptionId : String) : Bool × List ActivatedSubscription :=
  match store with
  | [] => (false, [])
  | sub :: rest =>
    if sub.id = subscriptionId then
      (true, { sub with status := SubStatus.cancelled } :: rest)
    else
      let r := cancelSubscription rest subscriptionId
      (r.1, sub :: r.2)

/-- A concrete catalogue entry, for concrete instantiations. -/
def sampleSub : Subscription :=
  { id := "netflix"
    name := "Netflix"
    price := 100
    solPrice := 1
    period := "month"
    category := "Entertainment" }

/-- A concrete stored record that is already cancelled. -/
def sampleCancelled : ActivatedSubscription :=
  { id := "netflix-0"
    name := "Netflix"
    price := 100
    solPrice := 1
    period := "month"
    category := "Entertainment"
    activatedAt := 0
    expiresAt := 2592000000
    status := SubStatus.cancelled
    cashbackEarned := some 10 }

/-- The store contents reachable from the service's initial empty
`activatedSubscriptions` array by its mutating operations. -/
inductive Reachable : List ActivatedSubscription → Prop where
  | init : Reachable []
  | activate (now : Nat) (sub : Subscription) {s : List ActivatedSubscription} :
      Reachable s → Reachable (activateSubscription now s sub).1
  | cancel (sid : String) {s : List ActivatedSubscription} :
      Reachable s → Reachable (cancelSubscription s sid).2

end SleekSrc

namespace SleekChain

/-- Typed error kinds of the ledger state machine (spec section 7). -/
inductive Err where
  | invalidAmount
  | alreadyExists
  | notFound
  | invalidState
  | insufficientBalance
deriving DecidableEq, Repr

/-- Payment status `{Pending, Completed, Failed}`. -/
inductive PayStatus where
  | pending
  | completed
  | failed
deriving DecidableEq, Repr

/-- Subscription status `{Active, Expired, Cancelled}`. -/
inductive ChainSubStatus where
  | active
  | expired
  | cancelled
deriving DecidableEq, Repr

/-- A Payment record (README account declaration; on-chain timestamps
are integer Unix seconds). -/
structure Payment where
  user : Nat
  subscriptionId : Nat
  sequenceNumber : Nat
  amount : Int
  solAmount : Int
  status : PayStatus
  timestamp : Int
deriving DecidableEq, Repr

/-- A Subscription record (README account declaration). -/
structure SubRecord where
  user : Nat
  subscriptionId : Nat
  amount : Int
  status : ChainSubStatus
  activationDate : Int
  expirationDate : Int
  cancellationDate : Option Int
deriving DecidableEq, Repr

/-- A CashbackRedemption record. -/
structure Redemption where
  user : Nat
  amount : Int
  timestamp : Int
deriving DecidableEq, Repr

/-- The whole on-chain state: the GlobalLedger counters plus every
record, owned together by the Ledger Store. -/
structure Ledger where
  totalSubscriptions : Nat
  totalPayments : Nat
  totalCashbackMinted : Int
  payments : List Payment
  subscriptions : List SubRecord
  redemptions : List Redemption
deriving DecidableEq, Repr

/-- The empty ledger produced by `initialize`. -/
def Ledger.empty : Ledger :=
  { totalSubscriptions := 0
    totalPayments := 0
    totalCashbackMinted := 0
    payments := []
    subscriptions := []
    redemptions := [] }

/-- Modelled from the spec: `computeCashback` of Cashback Accounting —
the on-chain program that mints the 10% cashback is absent from the
reviewed sources.  The spec gives `floor(amount * 0.10)`, i.e. floor
division of the integer amount by 10. -/
def computeCashback (amount : Int) : Int :=
  Int.fdiv amount 10

/-- Modelled from the spec: `periodDuration` maps day/week/month/year to
1/7/30/365 days in the unit of `activationDate` (seconds here), any other
kind defaulting to the year duration. -/
def periodDuration (periodKind : String) : Int :=
  if periodKind = "day" then 1 * 86400
  else if periodKind = "week" then 7 * 86400
  else if periodKind = "month" then 30 * 86400
  else if periodKind = "year" then 365 * 86400
  else 365 * 86400

/-- Whether `(user, subscriptionId)` already has a Subscription record. -/
def hasSubscription (st : Ledger) (user subId : Nat) : Bool :=
  st.subscriptions.any (fun s => s.user == user && s.subscriptionId == subId)

/-- Modelled from the spec: a user's cashback balance is derived as the
cashback of the user's Completed payments minus the user's redeemed
amounts. -/
def cashbackBalance (st : Ledger) (user : Nat) : Int :=
  ((st.payments.filter
      (fun p => p.user == user && p.status == PayStatus.completed)).map
      (fun p => computeCashback p.amount)).sum
    - ((st.redemptions.filter (fun r => r.user == user)).map
      (fun r => r.amount)).sum

/-- Modelled from the spec: `processSubscriptionPayment` of the Payment
Processor (spec section 4.4) — the on-chain instruction is absent from
the reviewed sources.  Validates `amount > 0`, `solAmount >= 0` and the
absence of a prior `(user, subscriptionId)` record, then, as one atomic
unit, appends a Completed Payment, appends an Active Subscription whose
expiry is `now + periodDuration periodKind`, accrues the cashback and
bumps the three global counters; on any failure it returns the ledger
unchanged. -/
def processSubscriptionPayment (now : Int) (st : Ledger) (user subId : Nat)
    (amount solAmount : Int) (periodKind : String) :
    Ledger × Except Err Payment :=
  if amount ≤ 0 then (st, Except.error Err.invalidAmount)
  else if solAmount < 0 then (st, Except.error Err.invalidAmount)
  else if hasSubscription st user subId then (st, Except.error Err.alreadyExists)
  else
    let payment : Payment :=
      { user := user
        subscriptionId := subId
        sequenceNumber := st.totalPayments
        amount := amount
        solAmount := solAmount
        status := PayStatus.completed
        timestamp := now }
    let subRec : SubRecord :=
      { user := user
        subscriptionId := subId
        amount := amount
        status := ChainSubStatus.active
        activationDate := now
        expirationDate := now + periodDuration periodKind
        cancellationDate := none }
    ({ totalSubscriptions := st.totalSubscriptions + 1
       totalPayments := st.totalPayments + 1
       totalCashbackMinted := st.totalCashbackMinted + computeCashback amount
       payments := st.payments ++ [payment]
       subscriptions := st.subscriptions ++ [subRec]
       redemptions := st.redemptions }, Except.ok payment)

/-- Modelled from the spec: `redeemCashback` of Cashback Accounting
(spec section 4.2) — the on-chain instruction is absent from the
reviewed sources.  Rejects a non-positive amount with `InvalidAmount`
and an amount above the derived balance with `InsufficientBalance`;
otherwise records the Redemption and burns the amount from
`totalCashbackMinted`, returning the new balance. -/
def redeemCashback (now : Int) (st : Ledger) (user : Nat) (amount : Int) :
    Ledger × Except Err Int :=
  if amount ≤ 0 then (st, Except.error Err.invalidAmount)
  else if cashbackBalance st user < amount then
    (st, Except.error Err.insufficientBalance)
  else
    ({ st with
        redemptions := st.redemptions ++ [{ user := user, amount := amount, timestamp := now }]
        totalCashbackMinted := st.totalCashbackMinted - amount },
     Except.ok (cashbackBalance st user - amount))

end SleekChain

namespace SleekSrc

/-- When no record's id matches, `cancelSubscription` reports failure and
returns the store unchanged. -/
theorem cancelSubscription_of_forall_ne (store : List ActivatedSubscription)
    (sid : String) (h : ∀ a ∈ store, a.id ≠ sid) :
    cancelSubscription store sid = (false, store) := by
  induction store with
  | nil => rfl
  | cons a rest ih =>
    have ha : a.id ≠ sid := h a (List.mem_cons_self a rest)
    have hrest := ih (fun b hb => h b (List.mem_cons_of_mem a hb))
    simp [cancelSubscription, ha, hrest]

/-- When the store splits at a first matching record, `cancelSubscription`
reports success and replaces exactly that record's status. -/
theorem cancelSubscription_of_split (pre : List ActivatedSubscription)
    (x : ActivatedSubscription) (post : List ActivatedSubscription) (sid : String)
    (hpre : ∀ a ∈ pre, a.id ≠ sid) (hx : x.id = sid) :
    cancelSubscription (pre ++ x :: post) sid
      = (true, pre ++ { x with status := SubStatus.cancelled } :: post) := by
  induction pre with
  | nil => simp [cancelSubscription, hx]
  | cons a rest ih =>
    have ha : a.id ≠ sid := hpre a (List.mem_cons_self a rest)
    have hrest := ih (fun b hb => hpre b (List.mem_cons_of_mem a hb))
    simp [cancelSubscription, ha, hrest]

/-- Every store either has no record with the given id, or splits at the
first such record. -/
theorem exists_first_match (store : List ActivatedSubscription) (sid : String) :
    (∀ a ∈ store, a.id ≠ sid) ∨
      ∃ pre x post, store = pre ++ x :: post ∧ (∀ a ∈ pre, a.id ≠ sid) ∧ x.id = sid := by
  induction store with
  | nil => exact Or.inl (by simp)
  | cons a rest ih =>
    by_cases ha : a.id = sid
    · exact Or.inr ⟨[], a, rest, by simp, by simp, ha⟩
    · cases ih with
      | inl h =>
        refine Or.inl ?_
        intro b hb
        rcases List.mem_cons.mp hb with h1 | h2
        · exact h1 ▸ ha
        · exact h b h2
      | inr h =>
        obtain ⟨pre, x, post, heq, hpre, hx⟩ := h
        refine Or.inr ⟨a :: pre, x, post, by simp [heq], ?_, hx⟩
        intro b hb
        rcases List.mem_cons.mp hb with h1 | h2
        · exact h1 ▸ ha
        · exact hpre b h2

/-- Every period duration is a positive number of milliseconds. -/
theorem getPeriodInMs_pos (p : String) : 0 < getPeriodInMs p := by
  simp only [getPeriodInMs]
  split_ifs <;> norm_num

end SleekSrc

namespace SleekSrc

/-- C3 counterexample: cancelling a subscription whose stored status is
already `cancelled` (not Active) succeeds — `cancelSubscription` returns
`true` and leaves the record cancelled — instead of failing with
`InvalidState`, so a second cancel of the same subscription succeeds. -/
theorem cancel_cancelled_succeeds :
    sampleCancelled.status ≠ SubStatus.active ∧
    (cancelSubscription [sampleCancelled] "netflix-0").1 = true ∧
    (cancelSubscription [sampleCancelled] "netflix-0").2 = [sampleCancelled] := by
  decide

/-- C3 (amended): `cancelSubscription` fails (returns `false`, store
unchanged) when no record's id matches; otherwise it returns `true` and
sets the status of the first matching record to `cancelled` regardless of
that record's current status — a repeat cancel also succeeds — and no
cancellation timestamp exists to be set. -/
theorem cancelSubscription_behavior :
    (∀ (store : List ActivatedSubscription) (sid : String),
      (∀ a ∈ store, a.id ≠ sid) → cancelSubscription store sid = (false, store)) ∧
    (∀ (pre : List ActivatedSubscription) (x : ActivatedSubscription)
        (post : List ActivatedSubscription) (sid : String),
      (∀ a ∈ pre, a.id ≠ sid) → x.id = sid →
      cancelSubscription (pre ++ x :: post) sid
        = (true, pre ++ { x with status := SubStatus.cancelled } :: post)) :=
  ⟨cancelSubscription_of_forall_ne, cancelSubscription_of_split⟩

/-- C4 counterexample: a second `activateSubscription` for the very same
subscription succeeds and appends a second record (store grows from one
record to two), instead of failing with `AlreadyExists` and creating no
record. -/
theorem activate_duplicate_creates_record :
    (activateSubscription 0 [] sampleSub).1.length = 1 ∧
    (activateSubscription 5 (activateSubscription 0 [] sampleSub).1 sampleSub).1.length = 2 ∧
    (activateSubscription 5 (activateSubscription 0 [] sampleSub).1 sampleSub).2.status
      = SubStatus.active := by
  refine ⟨?_, ?_, rfl⟩ <;> simp [activateSubscription]

/-- C4 (amended): the client-side `activateSubscription` performs no
duplicate check — every call succeeds and appends exactly one new active
record, whatever the store already holds; only the on-chain model rejects
a duplicate `(user, subscriptionId)` with `AlreadyExists`, creating
nothing and leaving the ledger unchanged. -/
theorem activate_no_duplicate_check :
    (∀ (now : Nat) (store : List ActivatedSubscription) (sub : Subscription),
      (activateSubscription now store sub).1
        = store ++ [(activateSubscription now store sub).2] ∧
      (activateSubscription now store sub).2.status = SubStatus.active) ∧
    (∀ (now : Int) (st : SleekChain.Ledger) (user subId : Nat)
        (amount solAmount : Int) (pk : String),
      0 < amount → 0 ≤ solAmount → SleekChain.hasSubscription st user subId = true →
      SleekChain.processSubscriptionPayment now st user subId amount solAmount pk
        = (st, Except.error SleekChain.Err.alreadyExists)) := by
  constructor
  · intro now store sub
    exact ⟨rfl, rfl⟩
  · intro now st user subId amount solAmount pk ha hs hdup
    have h1 : ¬ amount ≤ 0 := not_le.mpr ha
    have h2 : ¬ solAmount < 0 := not_lt.mpr hs
    simp [SleekChain.processSubscriptionPayment, h1, h2, hdup]

/-- C5: the status-query reads report a record as active exactly when its
stored status field is `active`: membership in `getActivatedSubscriptions`
and the truth of `isSubscriptionActivated` depend only on the stored
status (and name), so a record whose `expiresAt` has already passed but
whose status is still `active` is still reported active. -/
theorem active_reads_status_only :
    (∀ (store : List ActivatedSubscription) (sub : ActivatedSubscription),
      sub ∈ getActivatedSubscriptions store ↔ sub ∈ store ∧ sub.status = SubStatus.active) ∧
    (∀ (store : List ActivatedSubscription) (name : String),
      isSubscriptionActivated store name = true
        ↔ ∃ sub ∈ store, sub.name = name ∧ sub.status = SubStatus.active) ∧
    (∀ (store : List ActivatedSubscription) (sub : ActivatedSubscription) (now : Nat),
      sub ∈ store → sub.status = SubStatus.active → sub.expiresAt < now →
      sub ∈ getActivatedSubscriptions store) := by
  refine ⟨?_, ?_, ?_⟩
  · intro store sub
    simp [getActivatedSubscriptions, List.mem_filter]
  · intro store name
    simp [isSubscriptionActivated, List.any_eq_true]
  · intro store sub now hmem hstat _
    simp [getActivatedSubscriptions, List.mem_filter, hmem, hstat]

/-- C6: `getPeriodInMs` maps day, week, month and year to 1, 7, 30 and
365 days of milliseconds, any other (lower-cased) period kind defaults to
the 365-day year duration, and the activated record's expiry is its
activation time plus that duration. -/
theorem getPeriodInMs_spec :
    getPeriodInMs "day" = 24 * 60 * 60 * 1000 ∧
    getPeriodInMs "week" = 7 * 24 * 60 * 60 * 1000 ∧
    getPeriodInMs "month" = 30 * 24 * 60 * 60 * 1000 ∧
    getPeriodInMs "year" = 365 * 24 * 60 * 60 * 1000 ∧
    (∀ p : String, strToLower p ≠ "day" → strToLower p ≠ "week" →
      strToLower p ≠ "month" → strToLower p ≠ "year" →
      getPeriodInMs p = 365 * 24 * 60 * 60 * 1000) ∧
    (∀ (now : Nat) (store : List ActivatedSubscription) (sub : Subscription),
      (activateSubscription now store sub).2.expiresAt
        = (activateSubscription now store sub).2.activatedAt + getPeriodInMs sub.period) := by
  refine ⟨by decide, by decide, by decide, by decide, ?_, ?_⟩
  · intro p h1 h2 h3 h4
    simp only [getPeriodInMs]
    rw [if_neg h4, if_neg h3, if_neg h2, if_neg h1]
  · intro now store sub
    rfl

/-- C10: `cancelSubscription` keeps the number of stored records, and
either leaves the store entirely unchanged (no id matched) or changes
exactly the first matching record, and of that record only the status
field (the `{ x with status := cancelled }` update keeps every other
field), leaving every other record untouched. -/
theorem cancelSubscription_frame (store : List ActivatedSubscription) (sid : String) :
    (cancelSubscription store sid).2.length = store.length ∧
    ((cancelSubscription store sid).2 = store ∨
      ∃ pre x post, store = pre ++ x :: post ∧ (∀ a ∈ pre, a.id ≠ sid) ∧ x.id = sid ∧
        (cancelSubscription store sid).2
          = pre ++ { x with status := SubStatus.cancelled } :: post) := by
  rcases exists_first_match store sid with h | ⟨pre, x, post, heq, hpre, hx⟩
  · rw [cancelSubscription_of_forall_ne store sid h]
    exact ⟨rfl, Or.inl rfl⟩
  · subst heq
    rw [cancelSubscription_of_split pre x post sid hpre hx]
    constructor
    · simp
    · exact Or.inr ⟨pre, x, post, rfl, hpre, hx, rfl⟩

end SleekSrc

namespace SleekSrc

/-- C8: every record of every store reachable by the service's operations
satisfies `activatedAt < expiresAt`: activation adds a record whose expiry
is the activation time plus a positive period duration, and cancellation
never touches either timestamp. -/
theorem reachable_expiry_after_activation (s : List ActivatedSubscription)
    (h : Reachable s) : ∀ a ∈ s, a.activatedAt < a.expiresAt := by
  induction h with
  | init =>
    intro a ha
    simp at ha
  | activate now sub h ih =>
    intro a ha
    simp only [activateSubscription] at ha
    rcases List.mem_append.mp ha with h1 | h2
    · exact ih a h1
    · have ha2 := List.mem_singleton.mp h2
      subst ha2
      have hpos := getPeriodInMs_pos sub.period
      show now < now + getPeriodInMs sub.period
      omega
  | cancel sid h ih =>
    rcases exists_first_match _ sid with hno | ⟨pre, x, post, heq, hpre, hx⟩
    · rw [cancelSubscription_of_forall_ne _ sid hno]
      exact ih
    · rw [heq, cancelSubscription_of_split pre x post sid hpre hx]
      intro a ha
      rcases List.mem_append.mp ha with h1 | h2
      · exact ih a (heq ▸ List.mem_append_left _ h1)
      · rcases List.mem_cons.mp h2 with h3 | h4
        · subst h3
          exact ih x (heq ▸ List.mem_append_right _ (List.mem_cons_self x post))
        · exact ih a (heq ▸ List.mem_append_right _ (List.mem_cons_of_mem x h4))

/-- C8 witness: in the concrete store reached by one activation from the
empty store, the activated record's expiry lies strictly after its
activation time. -/
theorem reachable_expiry_witness :
    (activateSubscription 0 [] sampleSub).2.activatedAt
      < (activateSubscription 0 [] sampleSub).2.expiresAt :=
  reachable_expiry_after_activation (activateSubscription 0 [] sampleSub).1
    (Reachable.activate 0 sampleSub Reachable.init)
    (activateSubscription 0 [] sampleSub).2 (by simp [activateSubscription])

end SleekSrc

namespace SleekChain

/-- Appending one Completed payment of this user raises the derived
cashback balance by that payment's cashback, whatever the counters and
subscriptions become. -/
theorem cashbackBalance_pay_shape (st : Ledger) (user subId seq : Nat)
    (amount solAmount now : Int) (tS tP : Nat) (tC : Int) (subs : List SubRecord) :
    cashbackBalance
      { totalSubscriptions := tS
        totalPayments := tP
        totalCashbackMinted := tC
        payments := st.payments ++ [{ user := user
                                      subscriptionId := subId
                                      sequenceNumber := seq
                                      amount := amount
                                      solAmount := solAmount
                                      status := PayStatus.completed
                                      timestamp := now }]
        subscriptions := subs
        redemptions := st.redemptions } user
      = cashbackBalance st user + computeCashback amount := by
  simp [cashbackBalance, List.filter_append, List.map_append, List.sum_append]
  ring

/-- Appending one redemption of this user lowers the derived cashback
balance by that redemption's amount, whatever `totalCashbackMinted`
becomes. -/
theorem cashbackBalance_redeem_shape (st : Ledger) (user : Nat)
    (amount now tot : Int) :
    cashbackBalance
      { st with
          redemptions := st.redemptions
            ++ [{ user := user, amount := amount, timestamp := now }]
          totalCashbackMinted := tot } user
      = cashbackBalance st user - amount := by
  simp [cashbackBalance, List.filter_append, List.map_append, List.sum_append]
  ring

/-- A payment attempt for an already-recorded `(user, subscriptionId)`
with otherwise valid inputs fails with `AlreadyExists` and returns the
ledger unchanged. -/
theorem processSubscriptionPayment_dup (now : Int) (st : Ledger) (user subId : Nat)
    (amount solAmount : Int) (pk : String)
    (ha : 0 < amount) (hs : 0 ≤ solAmount)
    (hdup : hasSubscription st user subId = true) :
    processSubscriptionPayment now st user subId amount solAmount pk
      = (st, Except.error Err.alreadyExists) := by
  simp [processSubscriptionPayment, not_le.mpr ha, not_lt.mpr hs, hdup]

/-- A payment attempt with valid inputs and no prior record succeeds,
returning the Completed payment, and bumps `totalSubscriptions` by one. -/
theorem processSubscriptionPayment_ok (now : Int) (st : Ledger) (user subId : Nat)
    (amount solAmount : Int) (pk : String)
    (h1 : ¬ amount ≤ 0) (h2 : ¬ solAmount < 0)
    (h3 : ¬ hasSubscription st user subId = true) :
    (processSubscriptionPayment now st user subId amount solAmount pk).2
      = Except.ok { user := user
                    subscriptionId := subId
                    sequenceNumber := st.totalPayments
                    amount := amount
                    solAmount := solAmount
                    status := PayStatus.completed
                    timestamp := now } ∧
    (processSubscriptionPayment now st user subId amount solAmount pk).1.totalSubscriptions
      = st.totalSubscriptions + 1 := by
  simp [processSubscriptionPayment, if_neg h1, if_neg h2, if_neg h3]

/-- After a successful payment for `(user, subId)`, the ledger has a
Subscription record for that pair. -/
theorem hasSubscription_after_process (now : Int) (st : Ledger) (user subId : Nat)
    (amount solAmount : Int) (pk : String)
    (h1 : ¬ amount ≤ 0) (h2 : ¬ solAmount < 0)
    (h3 : ¬ hasSubscription st user subId = true) :
    hasSubscription (processSubscriptionPayment now st user subId amount solAmount pk).1
      user subId = true := by
  simp only [processSubscriptionPayment, if_neg h1, if_neg h2, if_neg h3]
  simp [hasSubscription, List.any_append]

end SleekChain

namespace SleekChain

/-- C1: a successful `processSubscriptionPayment` observably appends
exactly one Completed Payment and one Active Subscription for the pair,
raises the user's derived cashback balance by `computeCashback amount`,
and bumps `totalPayments` and `totalSubscriptions` by one and
`totalCashbackMinted` by the cashback amount; any failure returns the
ledger unchanged (all-or-nothing), and success is reached whenever the
inputs are valid and the pair is new. -/
theorem processSubscriptionPayment_atomic (now : Int) (st : Ledger) (user subId : Nat)
    (amount solAmount : Int) (pk : String) :
    (∀ p : Payment,
      (processSubscriptionPayment now st user subId amount solAmount pk).2 = Except.ok p →
      (processSubscriptionPayment now st user subId amount solAmount pk).1.payments
          = st.payments ++ [p] ∧
      p.status = PayStatus.completed ∧
      (∃ srec : SubRecord,
        (processSubscriptionPayment now st user subId amount solAmount pk).1.subscriptions
            = st.subscriptions ++ [srec] ∧
        srec.status = ChainSubStatus.active ∧ srec.user = user ∧
        srec.subscriptionId = subId) ∧
      cashbackBalance (processSubscriptionPayment now st user subId amount solAmount pk).1 user
          = cashbackBalance st user + computeCashback amount ∧
      (processSubscriptionPayment now st user subId amount solAmount pk).1.totalPayments
          = st.totalPayments + 1 ∧
      (processSubscriptionPayment now st user subId amount solAmount pk).1.totalSubscriptions
          = st.totalSubscriptions + 1 ∧
      (processSubscriptionPayment now st user subId amount solAmount pk).1.totalCashbackMinted
          = st.totalCashbackMinted + computeCashback amount) ∧
    (∀ e : Err,
      (processSubscriptionPayment now st user subId amount solAmount pk).2 = Except.error e →
      (processSubscriptionPayment now st user subId amount solAmount pk).1 = st) ∧
    (0 < amount → 0 ≤ solAmount → hasSubscription st user subId = false →
      ∃ p : Payment,
        (processSubscriptionPayment now st user subId amount solAmount pk).2 = Except.ok p) := by
  by_cases h1 : amount ≤ 0
  · refine ⟨?_, ?_, ?_⟩
    · intro p hp
      simp [processSubscriptionPayment, h1] at hp
    · intro e _
      simp [processSubscriptionPayment, h1]
    · intro hpos _ _
      exact absurd h1 (not_le.mpr hpos)
  by_cases h2 : solAmount < 0
  · refine ⟨?_, ?_, ?_⟩
    · intro p hp
      simp [processSubscriptionPayment, h1, h2] at hp
    · intro e _
      simp [processSubscriptionPayment, h1, h2]
    · intro _ hsol _
      exact absurd h2 (not_lt.mpr hsol)
  by_cases h3 : hasSubscription st user subId = true
  · refine ⟨?_, ?_, ?_⟩
    · intro p hp
      simp [processSubscriptionPayment, h1, h2, h3] at hp
    · intro e _
      simp [processSubscriptionPayment, h1, h2, h3]
    · intro _ _ hdup
      simp [h3] at hdup
  · refine ⟨?_, ?_, ?_⟩
    · intro p hp
      simp only [processSubscriptionPayment, if_neg h1, if_neg h2, if_neg h3] at hp ⊢
      injection hp with hp2
      subst hp2
      refine ⟨rfl, rfl, ⟨_, rfl, rfl, rfl, rfl⟩, ?_, trivial, trivial, trivial⟩
      exact cashbackBalance_pay_shape st user subId st.totalPayments amount solAmount now
        (st.totalSubscriptions + 1) (st.totalPayments + 1)
        (st.totalCashbackMinted + computeCashback amount) _
    · intro e he
      simp only [processSubscriptionPayment, if_neg h1, if_neg h2, if_neg h3] at he
      exact absurd he (by simp)
    · intro _ _ _
      simp only [processSubscriptionPayment, if_neg h1, if_neg h2, if_neg h3]
      exact ⟨_, rfl⟩

/-- C7: `redeemCashback` rejects a non-positive amount with
`InvalidAmount` and, for a (non-negative) balance smaller than the
requested amount, rejects with `InsufficientBalance`, in both cases
leaving the ledger — hence the balance — unchanged; otherwise it lowers
the derived balance by the amount, appends the CashbackRedemption record,
burns the amount from `totalCashbackMinted` and returns the new
balance. -/
theorem redeemCashback_spec (now : Int) (st : Ledger) (user : Nat) (amount : Int) :
    (amount ≤ 0 → redeemCashback now st user amount = (st, Except.error Err.invalidAmount)) ∧
    (0 ≤ cashbackBalance st user → cashbackBalance st user < amount →
      redeemCashback now st user amount = (st, Except.error Err.insufficientBalance)) ∧
    (0 < amount → amount ≤ cashbackBalance st user →
      cashbackBalance (redeemCashback now st user amount).1 user
          = cashbackBalance st user - amount ∧
      (redeemCashback now st user amount).1.redemptions
          = st.redemptions ++ [{ user := user, amount := amount, timestamp := now }] ∧
      (redeemCashback now st user amount).1.totalCashbackMinted
          = st.totalCashbackMinted - amount ∧
      (redeemCashback now st user amount).1.payments = st.payments ∧
      (redeemCashback now st user amount).2
          = Except.ok (cashbackBalance st user - amount)) := by
  by_cases h1 : amount ≤ 0
  · refine ⟨fun _ => ?_, fun hb hlt => absurd hlt (not_lt.mpr (le_trans h1 hb)),
      fun hpos _ => absurd h1 (not_le.mpr hpos)⟩
    simp [redeemCashback, h1]
  by_cases h2 : cashbackBalance st user < amount
  · refine ⟨fun ha => absurd ha h1, fun _ _ => ?_, fun _ hle => absurd h2 (not_lt.mpr hle)⟩
    simp [redeemCashback, h1, h2]
  · refine ⟨fun ha => absurd ha h1, fun _ hlt => absurd hlt h2,
      fun hpos hle => ⟨?_, ?_, ?_, ?_, ?_⟩⟩
    · simp only [redeemCashback, if_neg h1, if_neg h2]
      exact cashbackBalance_redeem_shape st user amount now _
    · simp [redeemCashback, if_neg h1, if_neg h2]
    · simp [redeemCashback, if_neg h1, if_neg h2]
    · simp [redeemCashback, if_neg h1, if_neg h2]
    · simp [redeemCashback, if_neg h1, if_neg h2]

/-- C9: with per-key serialization, two duplicate payment submissions
for the same `(user, subscriptionId)` run in some order: the first
(valid) one succeeds, the second observes `AlreadyExists` and changes
nothing, and `totalSubscriptions` rises by exactly one. -/
theorem concurrent_duplicate_rejected (now1 now2 : Int) (st : Ledger) (user subId : Nat)
    (a1 s1 : Int) (pk1 : String) (a2 s2 : Int) (pk2 : String)
    (ha1 : 0 < a1) (hs1 : 0 ≤ s1) (ha2 : 0 < a2) (hs2 : 0 ≤ s2)
    (hdup : hasSubscription st user subId = false) :
    (∃ p : Payment,
      (processSubscriptionPayment now1 st user subId a1 s1 pk1).2 = Except.ok p) ∧
    processSubscriptionPayment now2
        (processSubscriptionPayment now1 st user subId a1 s1 pk1).1 user subId a2 s2 pk2
      = ((processSubscriptionPayment now1 st user subId a1 s1 pk1).1,
         Except.error Err.alreadyExists) ∧
    (processSubscriptionPayment now1 st user subId a1 s1 pk1).1.totalSubscriptions
      = st.totalSubscriptions + 1 := by
  have h1 : ¬ a1 ≤ 0 := not_le.mpr ha1
  have h2 : ¬ s1 < 0 := not_lt.mpr hs1
  have h3 : ¬ hasSubscription st user subId = true := by simp [hdup]
  obtain ⟨hok, hcount⟩ := processSubscriptionPayment_ok now1 st user subId a1 s1 pk1 h1 h2 h3
  refine ⟨⟨_, hok⟩, ?_, hcount⟩
  exact processSubscriptionPayment_dup now2 _ user subId a2 s2 pk2 ha2 hs2
    (hasSubscription_after_process now1 st user subId a1 s1 pk1 h1 h2 h3)

/-- C9 witness: on the empty ledger, the first of two identical valid
submissions for `(user 1, subscription 1)` succeeds, the second fails
with `AlreadyExists` leaving the ledger unchanged, and
`totalSubscriptions` ends at exactly one. -/
theorem concurrent_duplicate_rejected_witness :
    (∃ p : Payment,
      (processSubscriptionPayment 0 Ledger.empty 1 1 59940 100000000 "year").2
        = Except.ok p) ∧
    processSubscriptionPayment 1
        (processSubscriptionPayment 0 Ledger.empty 1 1 59940 100000000 "year").1
        1 1 59940 100000000 "year"
      = ((processSubscriptionPayment 0 Ledger.empty 1 1 59940 100000000 "year").1,
         Except.error Err.alreadyExists) ∧
    (processSubscriptionPayment 0 Ledger.empty 1 1 59940 100000000 "year").1.totalSubscriptions
      = Ledger.empty.totalSubscriptions + 1 :=
  concurrent_duplicate_rejected 0 1 Ledger.empty 1 1 59940 100000000 "year"
    59940 100000000 "year" (by norm_num) (by norm_num) (by norm_num) (by norm_num) rfl

/-- C2: `computeCashback` is the mathematical `floor(amount * 0.10)` on
every integer amount, and in particular sends 59940 to 5994. -/
theorem computeCashback_floor :
    (∀ amount : Int, computeCashback amount = ⌊(amount : ℚ) * (0.10 : ℚ)⌋) ∧
    computeCashback 59940 = 5994 := by
  constructor
  · intro a
    show Int.fdiv a 10 = ⌊(a : ℚ) * (0.10 : ℚ)⌋
    have h1 : Int.fdiv a 10 = a / 10 := Int.fdiv_eq_ediv a (by norm_num)
    have h2 : (a : ℚ) * (0.10 : ℚ) = (a : ℚ) / ((10 : ℕ) : ℚ) := by
      norm_num
      ring
    rw [h1, h2, Rat.floor_intCast_div_natCast]
    norm_num
  · decide

end SleekChain
